import Mathlib

/-!
Shallow embedding of the LI.FI fee-collector scraper core
(`EventProcessor`, `BlockchainService.parseFeeCollectorEvents`,
`ScraperService`, the chains/events controllers and the process-wide
configuration), together with proofs of the specification claims
about the block-range planner, cursor commit discipline, duplicate
filtering, address handling and interval management.

Conventions of the embedding:
* machine numbers are `Nat` (all quantities in the source are
  non-negative block numbers, counters or millisecond intervals);
* JavaScript `x || d` on an optional numeric field is `jsOr`
  (`undefined`/missing and `0` are falsy), and on an optional string
  field it is `jsOrStr` (`undefined` and `""` are falsy, and the
  default used in the source is `""` itself);
* fallible steps return `Except`; the surrounding `try/catch` of
  `processBlockRange` is the final `match`;
* the Mongo collections are lists of records; `findOneAndUpdate`
  with `upsert` is an explicit update-or-append on the list.
-/

namespace FeeCollector

/-- JavaScript `x || d` for an optional number: `undefined`, `null`
and `0` are falsy and select the default. -/
def jsOr (x : Option Nat) (d : Nat) : Nat :=
  match x with
  | none => d
  | some v => if v = 0 then d else v

/-- JavaScript `x || ""` for an optional string (the only string
default used by the source is the empty string, for which
the truthiness of `x` is irrelevant). -/
def jsOrStr (x : Option String) : String :=
  match x with
  | none => ""
  | some s => s

@[simp] theorem jsOr_none (d : Nat) : jsOr none d = d := rfl

theorem jsOr_some_pos (v d : Nat) (h : 0 < v) : jsOr (some v) d = v := by
  simp [jsOr, Nat.pos_iff_ne_zero.mp h]

/-- Process-wide scraper configuration (`config.scraper` in
`src/config`): defaults come from the environment, with
`DEFAULT_STARTING_BLOCK` falling back to `70000000` and
`DEFAULT_MAX_BLOCK_RANGE` to `1000`. -/
structure ScraperConfig where
  defaultInterval : Nat := 30000
  defaultStartingBlock : Nat := 70000000
  maxBlockRange : Nat := 1000
deriving Repr, DecidableEq

/-- A planned block window (`BlockRange` in `src/types/blockchain`). -/
structure BlockRange where
  chainId : Nat
  fromBlock : Nat
  toBlock : Nat
deriving Repr, DecidableEq

/-- `EventProcessor.calculateBlockRange`, as a pure function of the
values the method reads: the persisted cursor
(`scraperState?.lastProcessedBlock`, `none` when the `ScraperState`
document is missing), the latest block reported by the provider, the
chain's own `maxBlockRange` (`none` when the `ChainConfiguration`
document is missing or the field absent) and the process
configuration.  Mirrors the source:
`lastProcessedBlock = scraperState?.lastProcessedBlock || config.scraper.defaultStartingBlock`,
`maxBlockRange = chainConfig?.maxBlockRange || config.scraper.maxBlockRange`,
`fromBlock = lastProcessedBlock + 1`,
`toBlock = Math.min(fromBlock + maxBlockRange - 1, latestBlock)`,
returning `null` when `fromBlock > toBlock`. -/
def calculateBlockRange (chainId : Nat) (stateLastProcessedBlock : Option Nat)
    (latestBlock : Nat) (chainMaxBlockRange : Option Nat)
    (cfg : ScraperConfig) : Option BlockRange :=
  let lastProcessedBlock := jsOr stateLastProcessedBlock cfg.defaultStartingBlock
  let maxBlockRange := jsOr chainMaxBlockRange cfg.maxBlockRange
  let fromBlock := lastProcessedBlock + 1
  let toBlock := min (fromBlock + maxBlockRange - 1) latestBlock
  if fromBlock > toBlock then none
  else some { chainId := chainId, fromBlock := fromBlock, toBlock := toBlock }

/-- C1 -- For a chain whose cursor is present and positive and whose
configured `maxBlockRange` is positive, `calculateBlockRange` computes
`from = lastProcessedBlock + 1` and `to = min (from + maxBlockRange - 1)
latestBlock`, returns `none` (Idle) exactly when `from > to` (equivalently
when the cursor has reached `latest`); every planned window satisfies
`to - from + 1 <= maxBlockRange` and `to <= latestBlock`; when
`cursor = latest` the planner is Idle, and when `cursor = latest - 1`
it plans the one-block window `[latest, latest]`. -/
theorem calculateBlockRange_spec (chainId c latest m : Nat) (cfg : ScraperConfig)
    (hc : 0 < c) (hm : 0 < m) :
    (calculateBlockRange chainId (some c) latest (some m) cfg
      = if c + 1 > min (c + 1 + m - 1) latest then none
        else some ⟨chainId, c + 1, min (c + 1 + m - 1) latest⟩)
    ∧ (calculateBlockRange chainId (some c) latest (some m) cfg = none ↔ latest ≤ c)
    ∧ (∀ r, calculateBlockRange chainId (some c) latest (some m) cfg = some r →
        r.fromBlock = c + 1 ∧ r.toBlock ≤ latest ∧ r.toBlock + 1 - r.fromBlock ≤ m)
    ∧ (c = latest → calculateBlockRange chainId (some c) latest (some m) cfg = none)
    ∧ (latest = c + 1 → calculateBlockRange chainId (some c) latest (some m) cfg
        = some ⟨chainId, latest, latest⟩) := by
  have hcfg : calculateBlockRange chainId (some c) latest (some m) cfg
      = if c + 1 > min (c + 1 + m - 1) latest then none
        else some ⟨chainId, c + 1, min (c + 1 + m - 1) latest⟩ := by
    simp only [calculateBlockRange, jsOr_some_pos _ _ hc, jsOr_some_pos _ _ hm]
  refine ⟨hcfg, ?_, ?_, ?_, ?_⟩
  · rw [hcfg]
    constructor
    · intro h
      by_contra hlt
      rw [if_neg ?_] at h
      · exact Option.noConfusion h
      · omega
    · intro h
      rw [if_pos (by omega)]
  · intro r hr
    rw [hcfg] at hr
    by_cases h : c + 1 > min (c + 1 + m - 1) latest
    · rw [if_pos h] at hr
      exact Option.noConfusion hr
    · rw [if_neg h] at hr
      have := Option.some.inj hr
      subst this
      refine ⟨rfl, ?_, ?_⟩ <;> simp only [min_def] <;> split <;> omega
  · intro h
    subst h
    rw [hcfg, if_pos (by omega)]
  · intro h
    subst h
    have hmin : min (c + 1 + m - 1) (c + 1) = c + 1 := by omega
    rw [hcfg, if_neg (by omega), hmin]

/-- Witness for `calculateBlockRange_spec` at `c = 9`, `latest = 10`,
`m = 5`: the planner yields the one-block window `[10, 10]`. -/
theorem calculateBlockRange_spec_witness :
    (0 < 9 ∧ 0 < 5)
    ∧ calculateBlockRange 137 (some 9) 10 (some 5) {} = some ⟨137, 10, 10⟩ := by
  refine ⟨⟨by decide, by decide⟩, ?_⟩
  exact ((calculateBlockRange_spec 137 9 10 5 {} (by decide) (by decide)).2.2.2.2 rfl)

/-- C9 -- When the `ScraperState` document is absent, or its
`lastProcessedBlock` is `0`, the `||` fallback substitutes the
process-wide `defaultStartingBlock`, so every planned window begins at
`defaultStartingBlock + 1`; with the stock configuration
(`DEFAULT_STARTING_BLOCK` unset, hence `70000000`) a cursor of `0`
yields a window beginning at `70000001`, never at block `1`. -/
theorem calculateBlockRange_default_cursor (chainId latest m : Nat)
    (cfg : ScraperConfig) (cur : Option Nat)
    (hcur : cur = none ∨ cur = some 0) :
    (∀ r, calculateBlockRange chainId cur latest (some m) cfg = some r →
        r.fromBlock = cfg.defaultStartingBlock + 1)
    ∧ (cfg.defaultStartingBlock = 70000000 →
        ∀ r, calculateBlockRange chainId cur latest (some m) cfg = some r →
          r.fromBlock = 70000001 ∧ r.fromBlock ≠ 1) := by
  have hfall : jsOr cur cfg.defaultStartingBlock = cfg.defaultStartingBlock := by
    rcases hcur with h | h <;> subst h <;> simp [jsOr]
  have main : ∀ r, calculateBlockRange chainId cur latest (some m) cfg = some r →
      r.fromBlock = cfg.defaultStartingBlock + 1 := by
    intro r hr
    simp only [calculateBlockRange, hfall] at hr
    by_cases h : cfg.defaultStartingBlock + 1 >
        min (cfg.defaultStartingBlock + 1 + jsOr (some m) cfg.maxBlockRange - 1) latest
    · rw [if_pos h] at hr
      exact Option.noConfusion hr
    · rw [if_neg h] at hr
      have := Option.some.inj hr
      subst this
      rfl
  refine ⟨main, ?_⟩
  intro hdef r hr
  have := main r hr
  rw [hdef] at this
  exact ⟨this, by omega⟩

/-- Witness for `calculateBlockRange_default_cursor` with a stored
cursor of `0` and the stock configuration: the planned window is
`[70000001, 70001000]`. -/
theorem calculateBlockRange_default_cursor_witness :
    (some 0 = none ∨ (some 0 : Option Nat) = some 0)
    ∧ ((70000000 : Nat) = 70000000
        ∧ (⟨1, 70000001, 70001000⟩ : BlockRange).fromBlock = 70000001
        ∧ (⟨1, 70000001, 70001000⟩ : BlockRange).fromBlock ≠ 1) := by
  have h := (calculateBlockRange_default_cursor 1 80000000 1000 {} (some 0)
    (Or.inr rfl)).2 rfl ⟨1, 70000001, 70001000⟩ (by decide)
  exact ⟨Or.inr rfl, rfl, h.1, h.2⟩

/-! ## Event processor: canonical records, parsing, storage, cursor -/

/-- The canonical event record (`BlockchainEvent` in
`src/types/blockchain`, stored 1:1 as a `FeeCollectedEvent` document by
`storeEvents`).  Instants are seconds since the epoch. -/
structure BlockchainEvent where
  chainId : Nat
  blockNumber : Nat
  blockHash : String
  transactionHash : String
  logIndex : Nat
  token : String
  integrator : String
  integratorFee : String
  lifiFee : String
  timestamp : Nat
deriving Repr, DecidableEq

/-- The four decoded arguments of a `FeesCollected` log
(`parsedEvent.args`, with the two fees already rendered via
`.toString()`). -/
structure DecodedArgs where
  token : String
  integrator : String
  integratorFee : String
  lifiFee : String
deriving Repr, DecidableEq

/-- A raw `ethers.Event` as `parseFeeCollectorEvents` consumes it:
the positional fields may be `undefined` (handled by `|| 0` and
`|| ""` in the source), and `decoded` is the outcome of
`contract.interface.parseLog` -- `none` models a log whose
topics/data do not decode to the expected shape, on which
`parseLog` throws. -/
structure RawLog where
  blockNumber : Option Nat
  blockHash : Option String
  transactionHash : Option String
  logIndex : Option Nat
  decoded : Option DecodedArgs
deriving Repr, DecidableEq

/-- The per-log body of `BlockchainService.parseFeeCollectorEvents`
(second revision, with block-timestamp enrichment): `parseLog` either
throws (`decoded = none`) or yields the four arguments verbatim; the
timestamp is `blockNumber ? blockTimestamps.get(blockNumber) || now : now`,
where `blockTimestamps` is the map assembled by `fetchBlockTimestamps`
(whose per-block failure fallback to `now` is part of the map handed
in here). -/
def decodeLog (chainId : Nat) (blockTimestamps : Nat → Option Nat) (now : Nat)
    (l : RawLog) : Except String BlockchainEvent :=
  match l.decoded with
  | none => .error "log does not decode to FeesCollected"
  | some args =>
    let blockTimestamp :=
      match l.blockNumber with
      | some b => if b = 0 then now else jsOr (blockTimestamps b) now
      | none => now
    .ok { chainId := chainId
          blockNumber := jsOr l.blockNumber 0
          blockHash := jsOrStr l.blockHash
          transactionHash := jsOrStr l.transactionHash
          logIndex := jsOr l.logIndex 0
          token := args.token
          integrator := args.integrator
          integratorFee := args.integratorFee
          lifiFee := args.lifiFee
          timestamp := blockTimestamp }

/-- Sequencing of the per-log decoders: any failing log makes the
whole batch fail, as one rejected promise rejects the `Promise.all`. -/
def traverseLogs (dec : RawLog → Except String BlockchainEvent) :
    List RawLog → Except String (List BlockchainEvent)
  | [] => .ok []
  | l :: ls => do
    let e ← dec l
    let es ← traverseLogs dec ls
    pure (e :: es)

/-- `BlockchainService.parseFeeCollectorEvents`: a `Promise.all` over
the per-log decoder -- one rejected log rejects the whole batch. -/
def parseFeeCollectorEvents (chainId : Nat) (blockTimestamps : Nat → Option Nat)
    (now : Nat) (events : List RawLog) : Except String (List BlockchainEvent) :=
  traverseLogs (decodeLog chainId blockTimestamps now) events

/-- The natural key `(chainId, transactionHash, logIndex)` used by the
duplicate filter of `storeEvents` (string template
`chainId-transactionHash-logIndex` in the source). -/
def naturalKey (e : BlockchainEvent) : Nat × String × Nat :=
  (e.chainId, e.transactionHash, e.logIndex)

/-- The existence pre-query of `storeEvents`:
`FeeCollectedEventModel.find` with independent `$in` filters on the
candidates' `chainId`s, `transactionHash`es and `logIndex`es. -/
def findExistingEvents (stored events : List BlockchainEvent) :
    List BlockchainEvent :=
  stored.filter (fun d =>
    decide (d.chainId ∈ events.map BlockchainEvent.chainId)
    && decide (d.transactionHash ∈ events.map BlockchainEvent.transactionHash)
    && decide (d.logIndex ∈ events.map BlockchainEvent.logIndex))

/-- The survivors of the duplicate filter of `storeEvents`: candidates
whose exact natural key is not among the keys of the documents
returned by the existence pre-query. -/
def newEventsOf (stored events : List BlockchainEvent) : List BlockchainEvent :=
  let existingKeys := (findExistingEvents stored events).map naturalKey
  events.filter (fun e => decide (naturalKey e ∉ existingKeys))

/-- Outcome of the `FeeCollectedEventModel.insertMany` call, chosen by
the environment: success, a unique-key collision reported by the
driver, or any other persistence failure.  The source's `storeEvents`
wraps the insert in a `try/catch` that logs and rethrows every error
without inspecting it. -/
inductive InsertOutcome
  | ok
  | dupKeyError
  | otherError
deriving Repr, DecidableEq

/-- `EventProcessor.storeEvents`: pre-query existing keys, filter the
candidates, return early when nothing is new, otherwise bulk-insert
(modelled all-or-nothing) and rethrow any insert error unchanged.
Returns the new stored collection and the number of inserted
documents (`result.length`). -/
def storeEvents (outcome : InsertOutcome) (stored events : List BlockchainEvent) :
    Except String (List BlockchainEvent × Nat) :=
  let newEvents := newEventsOf stored events
  if newEvents.isEmpty then
    .ok (stored, 0)
  else
    match outcome with
    | .ok => .ok (stored ++ newEvents, newEvents.length)
    | .dupKeyError => .error "E11000 duplicate key error"
    | .otherError => .error "store error"

/-- A `ScraperState` document (`src/models/ScraperState`): the
`workerStatus` mirror fields are omitted as no claim touches them. -/
structure ScraperState where
  chainId : Nat
  lastProcessedBlock : Nat
  isActive : Bool
  lastRunAt : Nat
  errorCount : Nat
  lastError : Option String
deriving Repr, DecidableEq

/-- `EventProcessor.updateScraperState`:
`ScraperStateModel.findOneAndUpdate({chainId}, {lastProcessedBlock,
lastRunAt: new Date(), errorCount: 0, lastError: undefined},
{upsert: true})` -- update the matching document, or insert a fresh one
(whose `isActive` takes the schema default `false`). -/
def updateScraperState (chainId lastProcessedBlock now : Nat)
    (states : List ScraperState) : List ScraperState :=
  if states.any (fun s => s.chainId == chainId) then
    states.map (fun s =>
      if s.chainId == chainId then
        { s with lastProcessedBlock := lastProcessedBlock, lastRunAt := now,
                 errorCount := 0, lastError := none }
      else s)
  else
    states ++ [{ chainId := chainId, lastProcessedBlock := lastProcessedBlock,
                 isActive := false, lastRunAt := now, errorCount := 0,
                 lastError := none }]

/-- The two collections `processBlockRange` touches. -/
structure Db where
  feeEvents : List BlockchainEvent
  scraperStates : List ScraperState
deriving Repr, DecidableEq

/-- The environment of one `processBlockRange` call: the response of
`loadFeeCollectorEvents` (after its internal retries), the
block-timestamp map and clock used by the parser, and the outcomes of
the two store writes. -/
structure TickEnv where
  loadResult : Except String (List RawLog)
  blockTimestamps : Nat → Option Nat
  now : Nat
  insertOutcome : InsertOutcome
  stateUpdateOk : Bool

/-- `EventProcessingResult` (without the wall-clock `processingTime`
and the error message text). -/
structure EventProcessingResult where
  chainId : Nat
  processedEvents : Nat
  fromBlock : Nat
  toBlock : Nat
  success : Bool
deriving Repr, DecidableEq

/-- `EventProcessor.processBlockRange`: load logs; on an empty window
commit the cursor and succeed; otherwise parse, store, commit the
cursor; the enclosing `try/catch` converts any thrown error into a
`success: false` result.  A failing `updateScraperState` after a
successful insert leaves the inserted events in place (the insert has
already happened) but the call reports failure. -/
def processBlockRange (env : TickEnv) (db : Db)
    (chainId fromBlock toBlock : Nat) : Db × EventProcessingResult :=
  match env.loadResult with
  | .error _ => (db, ⟨chainId, 0, fromBlock, toBlock, false⟩)
  | .ok rawEvents =>
    if rawEvents.isEmpty then
      if env.stateUpdateOk then
        ({ db with scraperStates := updateScraperState chainId toBlock env.now db.scraperStates },
          ⟨chainId, 0, fromBlock, toBlock, true⟩)
      else
        (db, ⟨chainId, 0, fromBlock, toBlock, false⟩)
    else
      match parseFeeCollectorEvents chainId env.blockTimestamps env.now rawEvents with
      | .error _ => (db, ⟨chainId, 0, fromBlock, toBlock, false⟩)
      | .ok parsedEvents =>
        match storeEvents env.insertOutcome db.feeEvents parsedEvents with
        | .error _ => (db, ⟨chainId, 0, fromBlock, toBlock, false⟩)
        | .ok (newStored, storedCount) =>
          if env.stateUpdateOk then
            ({ feeEvents := newStored,
               scraperStates := updateScraperState chainId toBlock env.now db.scraperStates },
              ⟨chainId, storedCount, fromBlock, toBlock, true⟩)
          else
            ({ db with feeEvents := newStored },
              ⟨chainId, 0, fromBlock, toBlock, false⟩)

/-- Lookup of a chain's `ScraperState` document
(`ScraperStateModel.findOne({chainId})`). -/
def getScraperState (chainId : Nat) (states : List ScraperState) :
    Option ScraperState :=
  states.find? (fun s => s.chainId == chainId)

/-! ## Cursor commit discipline (C3, C4) -/

/-- When the head does not match, updating the scraper state of a
`cons` list updates only the tail. -/
theorem updateScraperState_cons_skip (c b now : Nat) (s : ScraperState)
    (rest : List ScraperState) (hs : (s.chainId == c) = false) :
    updateScraperState c b now (s :: rest)
      = s :: updateScraperState c b now rest := by
  unfold updateScraperState
  by_cases hany : rest.any (fun x => x.chainId == c)
  · rw [if_pos hany, if_pos (by simp [List.any_cons, hs, hany]), List.map_cons,
      if_neg (by simp [hs])]
  · rw [if_neg hany, if_neg (by simp [List.any_cons, hs, hany]), List.cons_append]

/-- After `updateScraperState`, the looked-up document carries the
committed block, the fresh `lastRunAt`, a zero `errorCount` and a
cleared `lastError` -- whether the document was updated or upserted. -/
theorem getScraperState_updateScraperState (c b now : Nat) :
    ∀ states : List ScraperState,
      ∃ s, getScraperState c (updateScraperState c b now states) = some s
        ∧ s.lastProcessedBlock = b ∧ s.lastRunAt = now ∧ s.errorCount = 0
        ∧ s.lastError = none := by
  intro states
  induction states with
  | nil =>
    refine ⟨⟨c, b, false, now, 0, none⟩, ?_, rfl, rfl, rfl, rfl⟩
    simp [updateScraperState, getScraperState, List.find?]
  | cons s rest ih =>
    by_cases hs : (s.chainId == c) = true
    · refine ⟨⟨s.chainId, b, s.isActive, now, 0, none⟩, ?_, rfl, rfl, rfl, rfl⟩
      unfold updateScraperState getScraperState
      rw [if_pos (by simp [List.any_cons, hs]), List.map_cons, if_pos hs,
        List.find?_cons_of_pos _ (by simpa using hs)]
    · obtain ⟨s0, hfind, hb, hr, he, hl⟩ := ih
      refine ⟨s0, ?_, hb, hr, he, hl⟩
      rw [updateScraperState_cons_skip c b now s rest (by simpa using hs)]
      unfold getScraperState at hfind ⊢
      rw [List.find?_cons_of_neg _ (by simpa using hs)]
      exact hfind

/-- Every `processBlockRange` call either succeeds and rewrites the
chain's scraper state through `updateScraperState`, or fails and
leaves the scraper-state collection untouched. -/
theorem processBlockRange_state_change (env : TickEnv) (db : Db) (c f t : Nat) :
    ((processBlockRange env db c f t).2.success = true
      ∧ (processBlockRange env db c f t).1.scraperStates
          = updateScraperState c t env.now db.scraperStates)
    ∨ ((processBlockRange env db c f t).2.success = false
      ∧ (processBlockRange env db c f t).1.scraperStates = db.scraperStates) := by
  obtain ⟨load, ts, now, ins, sok⟩ := env
  cases load with
  | error e => exact Or.inr ⟨rfl, rfl⟩
  | ok raws =>
    by_cases hemp : raws.isEmpty
    · cases sok
      · exact Or.inr ⟨by simp [processBlockRange, hemp], by simp [processBlockRange, hemp]⟩
      · exact Or.inl ⟨by simp [processBlockRange, hemp], by simp [processBlockRange, hemp]⟩
    · cases hp : parseFeeCollectorEvents c ts now raws with
      | error e =>
        exact Or.inr ⟨by simp [processBlockRange, hemp, hp],
          by simp [processBlockRange, hemp, hp]⟩
      | ok parsed =>
        cases hstore : storeEvents ins db.feeEvents parsed with
        | error e =>
          exact Or.inr ⟨by simp [processBlockRange, hemp, hp, hstore],
            by simp [processBlockRange, hemp, hp, hstore]⟩
        | ok p =>
          cases sok
          · exact Or.inr ⟨by simp [processBlockRange, hemp, hp, hstore],
              by simp [processBlockRange, hemp, hp, hstore]⟩
          · exact Or.inl ⟨by simp [processBlockRange, hemp, hp, hstore],
              by simp [processBlockRange, hemp, hp, hstore]⟩

/-- C3 -- Whenever `processBlockRange` returns failure -- the log
query, the parser, the event insert or the state write having raised
the error -- the `ScraperState` collection, and with it every chain's
`lastProcessedBlock`, is exactly what it was before the call: the
cursor is committed only after all prior steps succeed. -/
theorem processBlockRange_failure_preserves_cursor (env : TickEnv) (db : Db)
    (c f t : Nat)
    (h : (processBlockRange env db c f t).2.success = false) :
    (processBlockRange env db c f t).1.scraperStates = db.scraperStates := by
  rcases processBlockRange_state_change env db c f t with ⟨hs, _⟩ | ⟨_, hst⟩
  · rw [hs] at h
    exact absurd h (by simp)
  · exact hst

/-- Shared sample block-timestamp map: every lookup misses, so the
parser falls back to `now`. -/
def sampleTimestamps : Nat → Option Nat := fun _ => none

/-- Environment in which the log query fails (after retries). -/
def envRpcDown : TickEnv :=
  { loadResult := .error "RPC unavailable", blockTimestamps := sampleTimestamps,
    now := 777, insertOutcome := .ok, stateUpdateOk := true }

/-- Environment in which the log query returns an empty window. -/
def envEmptyWindow : TickEnv :=
  { loadResult := .ok [], blockTimestamps := sampleTimestamps,
    now := 777, insertOutcome := .ok, stateUpdateOk := true }

/-- Sample database with one scraper state for chain 137 at block 50. -/
def dbOneState : Db :=
  { feeEvents := [],
    scraperStates := [{ chainId := 137, lastProcessedBlock := 50, isActive := true,
                        lastRunAt := 5, errorCount := 2, lastError := some "old" }] }

/-- Witness for `processBlockRange_failure_preserves_cursor`: a failed
RPC load for chain 137 leaves the cursor collection untouched. -/
theorem processBlockRange_failure_preserves_cursor_witness :
    (processBlockRange envRpcDown dbOneState 137 51 60).2.success = false
    ∧ (processBlockRange envRpcDown dbOneState 137 51 60).1.scraperStates
        = dbOneState.scraperStates :=
  ⟨rfl, processBlockRange_failure_preserves_cursor envRpcDown dbOneState 137 51 60 rfl⟩

/-- C4 -- Every successful `processBlockRange chainId from to` --
including an empty window -- commits the chain's `ScraperState` to
`lastProcessedBlock = to`, stamps `lastRunAt` with the wall clock,
resets `errorCount` to 0 and clears `lastError`. -/
theorem processBlockRange_success_commits_cursor (env : TickEnv) (db : Db)
    (c f t : Nat)
    (h : (processBlockRange env db c f t).2.success = true) :
    ∃ s, getScraperState c (processBlockRange env db c f t).1.scraperStates = some s
      ∧ s.lastProcessedBlock = t ∧ s.lastRunAt = env.now ∧ s.errorCount = 0
      ∧ s.lastError = none := by
  rcases processBlockRange_state_change env db c f t with ⟨_, hst⟩ | ⟨hs, _⟩
  · rw [hst]
    exact getScraperState_updateScraperState c t env.now db.scraperStates
  · rw [hs] at h
    exact absurd h (by simp)

/-- Witness for `processBlockRange_success_commits_cursor`: an empty
window for chain 137 succeeds and commits the cursor to `to = 60`. -/
theorem processBlockRange_success_commits_cursor_witness :
    (processBlockRange envEmptyWindow dbOneState 137 51 60).2.success = true
    ∧ ∃ s, getScraperState 137
          (processBlockRange envEmptyWindow dbOneState 137 51 60).1.scraperStates = some s
        ∧ s.lastProcessedBlock = 60 ∧ s.lastRunAt = envEmptyWindow.now
        ∧ s.errorCount = 0 ∧ s.lastError = none :=
  ⟨rfl, processBlockRange_success_commits_cursor envEmptyWindow dbOneState 137 51 60 rfl⟩

/-! ## Idempotent re-processing (C5) -/

/-- A stored document whose natural key coincides with some candidate's
is returned by the existence pre-query: each of its three key fields
occurs in the corresponding `$in` list. -/
theorem mem_findExistingEvents (stored events : List BlockchainEvent)
    (d : BlockchainEvent) (hd : d ∈ stored) (e : BlockchainEvent) (he : e ∈ events)
    (hkey : naturalKey d = naturalKey e) :
    d ∈ findExistingEvents stored events := by
  have h1 : d.chainId = e.chainId := congrArg Prod.fst hkey
  have h2 : d.transactionHash = e.transactionHash :=
    congrArg (fun p => p.2.1) hkey
  have h3 : d.logIndex = e.logIndex := congrArg (fun p => p.2.2) hkey
  unfold findExistingEvents
  refine List.mem_filter.mpr ⟨hd, ?_⟩
  simp only [Bool.and_eq_true, decide_eq_true_eq]
  exact ⟨⟨h1 ▸ List.mem_map_of_mem BlockchainEvent.chainId he,
    h2 ▸ List.mem_map_of_mem BlockchainEvent.transactionHash he⟩,
    h3 ▸ List.mem_map_of_mem BlockchainEvent.logIndex he⟩

/-- If every candidate's natural key already appears in the store, the
duplicate filter removes every candidate. -/
theorem newEventsOf_eq_nil (stored events : List BlockchainEvent)
    (h : ∀ e ∈ events, ∃ d ∈ stored, naturalKey d = naturalKey e) :
    newEventsOf stored events = [] := by
  unfold newEventsOf
  rw [List.filter_eq_nil_iff]
  intro e he
  simp only [decide_eq_true_eq, Decidable.not_not]
  obtain ⟨d, hd, hkey⟩ := h e he
  exact hkey ▸ List.mem_map_of_mem naturalKey
    (mem_findExistingEvents stored events d hd e he hkey)

/-- After appending the surviving candidates, every candidate's key is
present in the store. -/
theorem coverage_after_store (stored events : List BlockchainEvent) :
    ∀ e ∈ events, ∃ d ∈ stored ++ newEventsOf stored events,
      naturalKey d = naturalKey e := by
  intro e he
  by_cases hmem : naturalKey e ∈ (findExistingEvents stored events).map naturalKey
  · obtain ⟨d, hd, hkey⟩ := List.mem_map.mp hmem
    refine ⟨d, List.mem_append_left _ ?_, hkey⟩
    unfold findExistingEvents at hd
    exact List.mem_of_mem_filter hd
  · refine ⟨e, List.mem_append_right _ ?_, rfl⟩
    unfold newEventsOf
    exact List.mem_filter.mpr ⟨he, by simpa using hmem⟩

/-- A successful `storeEvents` reaches a fixed point: re-submitting the
same candidates against the resulting store filters out everything and
inserts nothing, whatever the second insert outcome would have been. -/
theorem storeEvents_ok_stable (o o2 : InsertOutcome)
    (stored events st2 : List BlockchainEvent) (n : Nat)
    (h : storeEvents o stored events = .ok (st2, n)) :
    storeEvents o2 st2 events = .ok (st2, 0) := by
  unfold storeEvents at h ⊢
  by_cases hemp : (newEventsOf stored events).isEmpty
  · rw [if_pos hemp] at h
    have hpair : (stored, 0) = (st2, n) := Except.ok.inj h
    have hst : stored = st2 := congrArg Prod.fst hpair
    rw [← hst, if_pos hemp]
  · rw [if_neg hemp] at h
    cases o with
    | ok =>
      have hpair : (stored ++ newEventsOf stored events, (newEventsOf stored events).length)
          = (st2, n) := Except.ok.inj h
      have hst : stored ++ newEventsOf stored events = st2 := congrArg Prod.fst hpair
      have hnil : newEventsOf st2 events = [] := by
        rw [← hst]
        exact newEventsOf_eq_nil _ _ (coverage_after_store stored events)
      rw [hnil]
      rfl
    | dupKeyError => exact absurd h (by simp)
    | otherError => exact absurd h (by simp)

/-- C5 -- Re-running `processBlockRange` on the same window with the
same environment (the RPC returning the same logs) leaves the stored
`FeeCollectedEvent` collection exactly as the first run left it: the
second run's duplicate filter, comparing exact
`(chainId, transactionHash, logIndex)` triples with the keys returned
by the existence pre-query, inserts nothing. -/
theorem processBlockRange_idempotent (env : TickEnv) (db : Db) (c f t : Nat) :
    (processBlockRange env (processBlockRange env db c f t).1 c f t).1.feeEvents
      = (processBlockRange env db c f t).1.feeEvents := by
  obtain ⟨load, ts, now, ins, sok⟩ := env
  cases load with
  | error e => rfl
  | ok raws =>
    by_cases hemp : raws.isEmpty
    · cases sok <;> simp [processBlockRange, hemp]
    · cases hp : parseFeeCollectorEvents c ts now raws with
      | error e => simp [processBlockRange, hemp, hp]
      | ok parsed =>
        cases hstore : storeEvents ins db.feeEvents parsed with
        | error e => simp [processBlockRange, hemp, hp, hstore]
        | ok p =>
          obtain ⟨st2, n⟩ := p
          have hstable : storeEvents ins st2 parsed = .ok (st2, 0) :=
            storeEvents_ok_stable ins ins db.feeEvents parsed st2 n hstore
          cases sok <;> simp [processBlockRange, hemp, hp, hstore, hstable]

/-! ## Decode errors and insert collisions (C8, C6) -/

/-- One undecodable log rejects the whole `Promise.all` of
`parseFeeCollectorEvents`. -/
theorem parseFeeCollectorEvents_error_of_bad_log (c : Nat) (ts : Nat → Option Nat)
    (now : Nat) (logs : List RawLog) (l : RawLog) (hl : l ∈ logs)
    (hbad : l.decoded = none) :
    ∃ e, parseFeeCollectorEvents c ts now logs = .error e := by
  induction logs with
  | nil => cases hl
  | cons a as ih =>
    unfold parseFeeCollectorEvents at *
    rcases List.mem_cons.mp hl with rfl | hmem
    · refine ⟨"log does not decode to FeesCollected", ?_⟩
      have hd : decodeLog c ts now l = .error "log does not decode to FeesCollected" := by
        unfold decodeLog
        rw [hbad]
      unfold traverseLogs
      rw [hd]
      rfl
    · cases hd : decodeLog c ts now a with
      | error e =>
        refine ⟨e, ?_⟩
        unfold traverseLogs
        rw [hd]
        rfl
      | ok v =>
        obtain ⟨e, he⟩ := ih hmem
        refine ⟨e, ?_⟩
        unfold traverseLogs
        rw [hd]
        show traverseLogs (decodeLog c ts now) as >>= _ = _
        rw [he]
        rfl

/-- C8 (amended) -- When any raw log of the window fails to decode to
the `FeesCollected` shape, the whole parse step throws, the tick
returns failure, and neither the event store nor the cursor changes:
no log of the window is skipped individually and no decode-error
threshold exists. -/
theorem processBlockRange_decode_error_fails_tick (env : TickEnv) (db : Db)
    (c f t : Nat) (logs : List RawLog) (l : RawLog)
    (hload : env.loadResult = .ok logs) (hl : l ∈ logs)
    (hbad : l.decoded = none) :
    (processBlockRange env db c f t).2.success = false
    ∧ (processBlockRange env db c f t).1 = db := by
  obtain ⟨load, ts, now, ins, sok⟩ := env
  subst hload
  have hemp : logs.isEmpty = false := by
    cases logs with
    | nil => cases hl
    | cons a as => rfl
  obtain ⟨e, he⟩ := parseFeeCollectorEvents_error_of_bad_log c ts now logs l hl hbad
  constructor <;> simp [processBlockRange, hemp, he]

/-- A raw log that decodes cleanly (used by several witnesses). -/
def goodRawLog : RawLog :=
  { blockNumber := some 105, blockHash := some "0xbh", transactionHash := some "0xaa01",
    logIndex := some 0,
    decoded := some { token := "0x1111111111111111111111111111111111111111",
                      integrator := "0x2222222222222222222222222222222222222222",
                      integratorFee := "1000000000000000000",
                      lifiFee := "500000000000000000" } }

/-- The canonical record `goodRawLog` decodes to (timestamps all fall
back to `now = 777` under `sampleTimestamps`). -/
def goodEvent : BlockchainEvent :=
  { chainId := 137, blockNumber := 105, blockHash := "0xbh",
    transactionHash := "0xaa01", logIndex := 0,
    token := "0x1111111111111111111111111111111111111111",
    integrator := "0x2222222222222222222222222222222222222222",
    integratorFee := "1000000000000000000", lifiFee := "500000000000000000",
    timestamp := 777 }

/-- A raw log whose topics/data do not decode (`parseLog` throws). -/
def badRawLog : RawLog :=
  { blockNumber := some 106, blockHash := some "0xbh2", transactionHash := some "0xaa02",
    logIndex := some 1, decoded := none }

/-- Environment delivering one good and one undecodable log. -/
def envOneBadLog : TickEnv :=
  { loadResult := .ok [goodRawLog, badRawLog], blockTimestamps := sampleTimestamps,
    now := 777, insertOutcome := .ok, stateUpdateOk := true }

/-- Empty database. -/
def dbEmpty : Db := { feeEvents := [], scraperStates := [] }

/-- Witness for `processBlockRange_decode_error_fails_tick` on the
concrete window `[goodRawLog, badRawLog]`. -/
theorem processBlockRange_decode_error_fails_tick_witness :
    (envOneBadLog.loadResult = .ok [goodRawLog, badRawLog]
      ∧ badRawLog ∈ [goodRawLog, badRawLog] ∧ badRawLog.decoded = none)
    ∧ ((processBlockRange envOneBadLog dbEmpty 137 100 110).2.success = false
      ∧ (processBlockRange envOneBadLog dbEmpty 137 100 110).1 = dbEmpty) :=
  ⟨⟨rfl, by decide, rfl⟩,
    processBlockRange_decode_error_fails_tick envOneBadLog dbEmpty 137 100 110
      [goodRawLog, badRawLog] badRawLog rfl (by decide) rfl⟩

/-- C8 (counterexample) -- the claim that a window containing an
undecodable log is still processed, with only that log skipped, fails
on the concrete window `[goodRawLog, badRawLog]`: the tick reports
failure and not even the decodable `goodRawLog` is stored. -/
theorem processBlockRange_decode_error_counterexample :
    (processBlockRange envOneBadLog dbEmpty 137 100 110).2.success = false
    ∧ (processBlockRange envOneBadLog dbEmpty 137 100 110).1.feeEvents = [] := by
  constructor <;> rfl

/-- C6 (amended) -- A unique-key collision reported by the bulk insert
is rethrown like any other store error: when the insert step is
reached with at least one surviving candidate and the driver reports a
duplicate key, `processBlockRange` returns failure and leaves both the
event store and the cursor untouched.  No collision is absorbed as
success. -/
theorem processBlockRange_dup_key_fails_tick (env : TickEnv) (db : Db)
    (c f t : Nat) (logs : List RawLog) (parsed : List BlockchainEvent)
    (hload : env.loadResult = .ok logs) (hemp : logs.isEmpty = false)
    (hp : parseFeeCollectorEvents c env.blockTimestamps env.now logs = .ok parsed)
    (hnew : (newEventsOf db.feeEvents parsed).isEmpty = false)
    (hdup : env.insertOutcome = .dupKeyError) :
    (processBlockRange env db c f t).2.success = false
    ∧ (processBlockRange env db c f t).1 = db := by
  obtain ⟨load, ts, now, ins, sok⟩ := env
  subst hload
  subst hdup
  have hstore : storeEvents .dupKeyError db.feeEvents parsed
      = .error "E11000 duplicate key error" := by
    unfold storeEvents
    rw [if_neg (by simp [hnew])]
  constructor <;> simp [processBlockRange, hemp, hp, hstore]

/-- Environment delivering one good log whose insert then reports a
unique-key collision. -/
def envDupKey : TickEnv :=
  { loadResult := .ok [goodRawLog], blockTimestamps := sampleTimestamps,
    now := 777, insertOutcome := .dupKeyError, stateUpdateOk := true }

/-- Witness for `processBlockRange_dup_key_fails_tick` on the concrete
one-log window whose insert collides. -/
theorem processBlockRange_dup_key_fails_tick_witness :
    (envDupKey.loadResult = .ok [goodRawLog]
      ∧ ([goodRawLog] : List RawLog).isEmpty = false
      ∧ parseFeeCollectorEvents 137 envDupKey.blockTimestamps envDupKey.now [goodRawLog]
          = .ok [goodEvent]
      ∧ (newEventsOf dbEmpty.feeEvents [goodEvent]).isEmpty = false
      ∧ envDupKey.insertOutcome = .dupKeyError)
    ∧ ((processBlockRange envDupKey dbEmpty 137 100 110).2.success = false
      ∧ (processBlockRange envDupKey dbEmpty 137 100 110).1 = dbEmpty) :=
  ⟨⟨rfl, rfl, rfl, rfl, rfl⟩,
    processBlockRange_dup_key_fails_tick envDupKey dbEmpty 137 100 110
      [goodRawLog] [goodEvent] rfl rfl rfl rfl rfl⟩

/-- C6 (counterexample) -- the claim that a duplicate-key collision is
absorbed and the tick still succeeds with the cursor committed fails
on the concrete one-log window: the tick reports failure and the
cursor collection stays empty. -/
theorem processBlockRange_dup_key_counterexample :
    (processBlockRange envDupKey dbEmpty 137 100 110).2.success = false
    ∧ (processBlockRange envDupKey dbEmpty 137 100 110).1.scraperStates = [] := by
  constructor <;> rfl

/-! ## Read path and address handling (C7) -/

/-- Hex digit of either case (`[a-fA-F0-9]`). -/
def isHexDigitChar (c : Char) : Bool :=
  (decide ('0' ≤ c) && decide (c ≤ '9'))
  || (decide ('a' ≤ c) && decide (c ≤ 'f'))
  || (decide ('A' ≤ c) && decide (c ≤ 'F'))

/-- Lowercase hex digit (`[0-9a-f]`). -/
def isLowerHexChar (c : Char) : Bool :=
  (decide ('0' ≤ c) && decide (c ≤ '9'))
  || (decide ('a' ≤ c) && decide (c ≤ 'f'))

/-- The validation regex `^0x[a-fA-F0-9]{40}$` applied by the events
controller to the `integrator` path parameter. -/
def isHexAddress (s : String) : Bool :=
  match s.data with
  | '0' :: 'x' :: rest => (rest.length == 40) && rest.all isHexDigitChar
  | _ => false

/-- The spec's stored-address format `^0x[0-9a-f]{40}$`. -/
def isLowercaseHexAddress (s : String) : Bool :=
  match s.data with
  | '0' :: 'x' :: rest => (rest.length == 40) && rest.all isLowerHexChar
  | _ => false

/-- ASCII model of `String.prototype.toLowerCase` per character. -/
def jsToLowerChar (c : Char) : Char :=
  if decide ('A' ≤ c) && decide (c ≤ 'Z') then Char.ofNat (c.toNat + 32) else c

/-- ASCII model of `String.prototype.toLowerCase`. -/
def jsToLower (s : String) : String :=
  ⟨s.data.map jsToLowerChar⟩

/-- `getEventsByIntegrator` (events controller): reject inputs failing
`^0x[a-fA-F0-9]{40}$` with a 400; otherwise query the store for
documents whose `integrator` equals the lowercased input exactly
(Mongo string equality is case sensitive), sort by `timestamp`
descending (the default `sortBy`/`sortOrder`), and paginate with
`limitNum = min limit 100`, `skip = (page - 1) * limitNum`. -/
def getEventsByIntegrator (stored : List BlockchainEvent) (integrator : String)
    (page limit : Nat) : Except String (List BlockchainEvent) :=
  if isHexAddress integrator = false then .error "Invalid integrator address"
  else
    let matched := stored.filter (fun e => e.integrator == jsToLower integrator)
    let sorted := matched.insertionSort (fun a b => b.timestamp ≤ a.timestamp)
    let limitNum := min limit 100
    let skip := (page - 1) * limitNum
    .ok ((sorted.drop skip).take limitNum)

/-- A raw log carrying EIP-55 checksummed (mixed-case) addresses, as
`ethers` returns them from `parseLog`. -/
def checksumRawLog : RawLog :=
  { blockNumber := some 105, blockHash := some "0xbh", transactionHash := some "0xcc01",
    logIndex := some 0,
    decoded := some { token := "0xAbCdEf1234567890aBcDeF1234567890AbCdEf12",
                      integrator := "0xAbCdEf1234567890aBcDeF1234567890AbCdEf12",
                      integratorFee := "1000000000000000000",
                      lifiFee := "500000000000000000" } }

/-- Environment delivering the checksummed log with all writes
succeeding. -/
def envChecksum : TickEnv :=
  { loadResult := .ok [checksumRawLog], blockTimestamps := sampleTimestamps,
    now := 777, insertOutcome := .ok, stateUpdateOk := true }

/-- The stored record the pipeline produces for `checksumRawLog`. -/
def checksumEvent : BlockchainEvent :=
  { chainId := 137, blockNumber := 105, blockHash := "0xbh",
    transactionHash := "0xcc01", logIndex := 0,
    token := "0xAbCdEf1234567890aBcDeF1234567890AbCdEf12",
    integrator := "0xAbCdEf1234567890aBcDeF1234567890AbCdEf12",
    integratorFee := "1000000000000000000", lifiFee := "500000000000000000",
    timestamp := 777 }

/-- C7 (counterexample) -- running the write pipeline on a log whose
decoded addresses are checksummed stores them verbatim: the stored
`integrator` fails `^0x[0-9a-f]{40}$`, and the read-path lookup with
that very address (a valid input of mixed case) returns no events,
because the lookup compares against the lowercased input. -/
theorem storedAddress_not_lowercase_counterexample :
    (processBlockRange envChecksum dbEmpty 137 100 110).1.feeEvents = [checksumEvent]
    ∧ isLowercaseHexAddress checksumEvent.integrator = false
    ∧ isHexAddress checksumEvent.integrator = true
    ∧ getEventsByIntegrator [checksumEvent] checksumEvent.integrator 1 50 = .ok [] := by
  refine ⟨by decide, by decide, by decide, by rfl⟩

/-- C7 (amended) -- no lowercase normalization happens on the write
path: the decoder hands `token` and `integrator` through verbatim into
the stored record; the read path lowercases only the queried input, so
a returned event always comes from the store and always has an
`integrator` equal to the lowercased input -- an event stored with a
mixed-case integrator is therefore returned by no lookup. -/
theorem address_handling_amended :
    (∀ (c now : Nat) (ts : Nat → Option Nat) (l : RawLog) (args : DecodedArgs),
        l.decoded = some args →
        ∃ e, decodeLog c ts now l = .ok e
          ∧ e.token = args.token ∧ e.integrator = args.integrator)
    ∧ (∀ (stored : List BlockchainEvent) (s : String) (page limit : Nat)
          (res : List BlockchainEvent),
        getEventsByIntegrator stored s page limit = .ok res →
        ∀ e ∈ res, e ∈ stored ∧ e.integrator = jsToLower s) := by
  constructor
  · intro c now ts l args h
    unfold decodeLog
    rw [h]
    exact ⟨_, rfl, rfl, rfl⟩
  · intro stored s page limit res hres e he
    unfold getEventsByIntegrator at hres
    by_cases hv : isHexAddress s = false
    · rw [if_pos hv] at hres
      exact absurd hres (by simp)
    · rw [if_neg hv] at hres
      have hres2 := Except.ok.inj hres
      rw [← hres2] at he
      have h1 : e ∈ (stored.filter
          (fun x => x.integrator == jsToLower s)).insertionSort
            (fun a b => b.timestamp ≤ a.timestamp) :=
        List.mem_of_mem_drop (List.mem_of_mem_take he)
      have h2 : e ∈ stored.filter (fun x => x.integrator == jsToLower s) :=
        (List.mem_insertionSort _).mp h1
      have h3 := List.mem_filter.mp h2
      exact ⟨h3.1, by simpa using h3.2⟩

/-- Witness for `address_handling_amended` at the all-lowercase record
`goodEvent` and its raw log. -/
theorem address_handling_amended_witness :
    (goodRawLog.decoded = some ⟨"0x1111111111111111111111111111111111111111",
        "0x2222222222222222222222222222222222222222",
        "1000000000000000000", "500000000000000000"⟩)
    ∧ (∃ e, decodeLog 137 sampleTimestamps 777 goodRawLog = .ok e
        ∧ e.token = "0x1111111111111111111111111111111111111111"
        ∧ e.integrator = "0x2222222222222222222222222222222222222222")
    ∧ (getEventsByIntegrator [goodEvent]
        "0x2222222222222222222222222222222222222222" 1 50 = .ok [goodEvent])
    ∧ (goodEvent ∈ [goodEvent]
        ∧ goodEvent.integrator
            = jsToLower "0x2222222222222222222222222222222222222222") :=
  ⟨rfl,
   address_handling_amended.1 137 777 sampleTimestamps goodRawLog
     ⟨"0x1111111111111111111111111111111111111111",
      "0x2222222222222222222222222222222222222222",
      "1000000000000000000", "500000000000000000"⟩ rfl,
   by rfl,
   address_handling_amended.2 [goodEvent]
     "0x2222222222222222222222222222222222222222" 1 50 [goodEvent]
     (by rfl) goodEvent (by decide)⟩

/-! ## Control plane: cursor initialization (C2) -/

/-- The `ScraperState` document the control-plane add operation
persists (`addChain` in the chains controller; the `startChain`
revision is identical in this line):
`lastProcessedBlock: value.startingBlock || 70000000`,
`isActive: true`, `errorCount: 0`. -/
def initialScraperState (chainId : Nat) (startingBlock : Option Nat)
    (now : Nat) : ScraperState :=
  { chainId := chainId, lastProcessedBlock := jsOr startingBlock 70000000,
    isActive := true, lastRunAt := now, errorCount := 0, lastError := none }

/-- C2 (counterexample) -- adding a chain with `startingBlock = 5`
persists a cursor of `5`, not the claimed `5 - 1 = 4`, and the first
window planned from that cursor begins at block `6`, not at the
configured starting block `5`. -/
theorem addChain_cursor_counterexample :
    (initialScraperState 137 (some 5) 0).lastProcessedBlock = 5
    ∧ ((initialScraperState 137 (some 5) 0).lastProcessedBlock = 5 - 1 → False)
    ∧ calculateBlockRange 137
        (some (initialScraperState 137 (some 5) 0).lastProcessedBlock)
        100 (some 10) {} = some ⟨137, 6, 15⟩ := by
  refine ⟨by decide, by decide, by decide⟩

/-- C2 (amended) -- the persisted `ScanCursor` of the add operation has
`lastProcessedBlock = startingBlock` itself (or `70000000` when the
field is omitted), so the first window planned for the chain begins at
`startingBlock + 1`: block `startingBlock` itself is never scanned. -/
theorem addChain_cursor_amended (chainId s now : Nat) (hs : 0 < s) :
    (initialScraperState chainId (some s) now).lastProcessedBlock = s
    ∧ (initialScraperState chainId none now).lastProcessedBlock = 70000000
    ∧ (∀ (latest m : Nat) (cfg : ScraperConfig) (r : BlockRange),
        calculateBlockRange chainId (some s) latest (some m) cfg = some r →
        r.fromBlock = s + 1) := by
  refine ⟨?_, rfl, ?_⟩
  · show jsOr (some s) 70000000 = s
    exact jsOr_some_pos s 70000000 hs
  · intro latest m cfg r hr
    simp only [calculateBlockRange, jsOr_some_pos _ _ hs] at hr
    by_cases h : s + 1 > min (s + 1 + jsOr (some m) cfg.maxBlockRange - 1) latest
    · rw [if_pos h] at hr
      exact Option.noConfusion hr
    · rw [if_neg h] at hr
      have := Option.some.inj hr
      subst this
      rfl

/-- Witness for `addChain_cursor_amended` at `s = 5` (with the planner
applied at `latest = 100`, `maxBlockRange = 10`). -/
theorem addChain_cursor_amended_witness :
    (0 < 5)
    ∧ (initialScraperState 137 (some 5) 0).lastProcessedBlock = 5
    ∧ (initialScraperState 137 none 0).lastProcessedBlock = 70000000
    ∧ (⟨137, 6, 15⟩ : BlockRange).fromBlock = 5 + 1 :=
  ⟨by decide,
   (addChain_cursor_amended 137 5 0 (by decide)).1,
   (addChain_cursor_amended 137 5 0 (by decide)).2.1,
   (addChain_cursor_amended 137 5 0 (by decide)).2.2 100 10 {} ⟨137, 6, 15⟩ (by decide)⟩

/-! ## Supervisor interval map (C10) -/

/-- `Map.prototype.set`: replace the value under an existing key, or
append a fresh entry. -/
def mapSet (m : List (Nat × Nat)) (k v : Nat) : List (Nat × Nat) :=
  if m.any (fun p => p.1 == k) then
    m.map (fun p => if p.1 == k then (k, v) else p)
  else m ++ [(k, v)]

/-- `Map.prototype.get` (`undefined` is `none`). -/
def mapGet (m : List (Nat × Nat)) (k : Nat) : Option Nat :=
  (m.find? (fun p => p.1 == k)).map (fun p => p.2)

/-- `ScraperService.updateChainInterval`: cancel the existing timer if
any (`clearInterval` does not remove the map entry), then
unconditionally `this.intervals.set(chainId, setInterval(..., scanInterval))`.
The association list maps each chain to the period of its installed
ticker. -/
def updateChainInterval (intervals : List (Nat × Nat))
    (chainId scanInterval : Nat) : List (Nat × Nat) :=
  mapSet intervals chainId scanInterval

/-- The effect of the control-plane `updateChain` on the interval map:
after persisting the patch it runs
`if (value.scanInterval) scraperService.updateChainInterval(chainIdNum, value.scanInterval)`
-- with no check of the chain's worker status. -/
def updateChainIntervalEffect (intervals : List (Nat × Nat)) (chainId : Nat)
    (patchScanInterval : Option Nat) : List (Nat × Nat) :=
  match patchScanInterval with
  | none => intervals
  | some v => if v = 0 then intervals else updateChainInterval intervals chainId v

/-- When the head key differs, `mapSet` only touches the tail. -/
theorem mapSet_cons_skip (p : Nat × Nat) (rest : List (Nat × Nat)) (k v : Nat)
    (hp : (p.1 == k) = false) :
    mapSet (p :: rest) k v = p :: mapSet rest k v := by
  unfold mapSet
  by_cases hany : rest.any (fun q => q.1 == k)
  · rw [if_pos hany, if_pos (by simp [List.any_cons, hp, hany]), List.map_cons,
      if_neg (by simp [hp])]
  · rw [if_neg hany, if_neg (by simp [List.any_cons, hp, hany]), List.cons_append]

/-- `get` after `set` returns the just-installed value, whether or not
the key was present before. -/
theorem mapGet_mapSet (m : List (Nat × Nat)) (k v : Nat) :
    mapGet (mapSet m k v) k = some v := by
  induction m with
  | nil => simp [mapSet, mapGet, List.find?]
  | cons p rest ih =>
    by_cases hp : (p.1 == k) = true
    · unfold mapSet mapGet
      rw [if_pos (by simp [List.any_cons, hp]), List.map_cons, if_pos hp,
        List.find?_cons_of_pos _ (by simp)]
      rfl
    · rw [mapSet_cons_skip p rest k v (by simpa using hp)]
      unfold mapGet at ih ⊢
      rw [List.find?_cons_of_neg _ (by simpa using hp)]
      exact ih

/-- C10 -- `updateChainInterval` unconditionally installs a ticker for
the chain at the new period -- in particular when the chain had no
ticker at all (stopped or never started) -- and hence a control-plane
update whose patch contains a (validated, so nonzero) `scanInterval`
leaves the chain with an installed periodic ticker at that period. -/
theorem updateChainInterval_installs_ticker (m : List (Nat × Nat)) (c v : Nat)
    (hv : 0 < v) :
    mapGet (updateChainInterval m c v) c = some v
    ∧ mapGet (updateChainIntervalEffect m c (some v)) c = some v := by
  have h1 : mapGet (updateChainInterval m c v) c = some v := mapGet_mapSet m c v
  refine ⟨h1, ?_⟩
  show mapGet (if v = 0 then m else updateChainInterval m c v) c = some v
  rw [if_neg (by omega)]
  exact h1

/-- Witness for `updateChainInterval_installs_ticker` on an empty
interval map (a stopped chain): the update installs a `10000` ms
ticker. -/
theorem updateChainInterval_installs_ticker_witness :
    (0 < 10000)
    ∧ mapGet (updateChainInterval [] 137 10000) 137 = some 10000
    ∧ mapGet (updateChainIntervalEffect [] 137 (some 10000)) 137 = some 10000 :=
  ⟨by decide,
   (updateChainInterval_installs_ticker [] 137 10000 (by decide)).1,
   (updateChainInterval_installs_ticker [] 137 10000 (by decide)).2⟩

end FeeCollector
